import Mathlib

/-!
Verification of the E20 instruction-set simulator (src/sim.py).

The simulator state is a program counter (a Python int, here ℕ), a register
file of 8 words (List ℕ) and a memory of 8192 words (List ℕ).  Python
integers are unbounded two's-complement integers, so masking with
2 ^ w - 1 (the source's bit-and) is reduction modulo 2 ^ w, including on
negative intermediate values; we embed those masks as % on ℤ (Lean's Int %
is Euclidean mod, which agrees with Python's mod for a positive modulus).
Bit-field extraction (instruction & mask) >> shift on the nonnegative
instruction word is embedded as instruction / 2 ^ shift % 2 ^ width.
-/

/-- Models valid_pc (sim.py lines 176-177): return pc % 65536.  The argument
is ℤ because one caller (jeq, line 134) passes pc + 1 + signed immediate,
which can be negative; Python's % with the positive modulus 65536 is
Euclidean mod, and the result is a natural number below 65536. -/
def valid_pc (pc : ℤ) : ℕ := (pc % 65536).toNat

/-- Models keep_16bits (sim.py lines 181-183): num & ((1 << 16) - 1).
Masking a Python two's-complement integer with 2^16 - 1 is reduction
modulo 2^16. -/
def keep_16bits (num : ℤ) : ℤ := num % 65536

/-- Models sign_extend_7 (sim.py lines 156-161): the leftmost bit
(num & 64) >> 6 is num / 64 % 2; when it is set the result is
65408 | num (a 16-bit unsigned sign-extended pattern), else num. -/
def sign_extend_7 (num : ℕ) : ℕ :=
  if num / 64 % 2 = 1 then 65408 ||| num else num

/-- Models sign_number_converter (sim.py lines 165-171): when the leftmost
bit (num & 64) >> 6 is set return -((num ^ bitmask) + 1) with
bitmask = (1 << bits) - 1, a native signed integer; else num itself. -/
def sign_number_converter (num bits : ℕ) : ℤ :=
  if num / 64 % 2 = 1 then -(((num ^^^ (2 ^ bits - 1)) + 1 : ℕ) : ℤ)
  else (num : ℤ)

/-- The lw/sw effective address expression of sim.py lines 125 and 129:
(regs[regSrc] + sign_number_converter(imm, 7)) & 8191.  The sum may be
negative, and Python's two's-complement mask with 8191 is mod 8192. -/
def effective_address (rs imm : ℕ) : ℕ :=
  (((rs : ℤ) + sign_number_converter imm 7) % 8192).toNat

/-- Models instruction_3R (sim.py lines 76-103).  Fields: regSrcA =
(instruction & 7168) >> 10, regSrcB = (instruction & 896) >> 7, regDst =
(instruction & 112) >> 4, opcode = instruction & 15. -/
def instruction_3R (instruction pc : ℕ) (regs memory : List ℕ) :
    ℕ × List ℕ × List ℕ :=
  let regSrcA := instruction / 1024 % 8
  let regSrcB := instruction / 128 % 8
  let regDst := instruction / 16 % 8
  let opcode := instruction % 16
  if opcode = 8 then (valid_pc (regs.getD regSrcA 0), regs, memory)
  else if regDst = 0 then (valid_pc (pc + 1), regs, memory)
  else if opcode = 0 then
    (valid_pc (pc + 1),
      regs.set regDst
        (keep_16bits ((regs.getD regSrcA 0 : ℤ) + (regs.getD regSrcB 0 : ℤ))).toNat,
      memory)
  else if opcode = 1 then
    (valid_pc (pc + 1),
      regs.set regDst
        (keep_16bits ((regs.getD regSrcA 0 : ℤ) - (regs.getD regSrcB 0 : ℤ))).toNat,
      memory)
  else if opcode = 2 then
    (valid_pc (pc + 1),
      regs.set regDst
        (keep_16bits ((regs.getD regSrcA 0 ||| regs.getD regSrcB 0 : ℕ) : ℤ)).toNat,
      memory)
  else if opcode = 3 then
    (valid_pc (pc + 1),
      regs.set regDst
        (keep_16bits ((regs.getD regSrcA 0 &&& regs.getD regSrcB 0 : ℕ) : ℤ)).toNat,
      memory)
  else if opcode = 4 then
    (valid_pc (pc + 1),
      if regs.getD regSrcA 0 < regs.getD regSrcB 0 then regs.set regDst 1
      else regs.set regDst 0,
      memory)
  else (valid_pc (pc + 1), regs, memory)

/-- Models instruction_2R (sim.py lines 107-140).  Fields: opcode =
(instruction & 57344) >> 13, regSrc = (instruction & 7168) >> 10, regDst =
(instruction & 896) >> 7, imm = instruction & 127.  The Python function
has no return statement after the final elif, so an unmatched opcode
yields None; we embed the result as an Option. -/
def instruction_2R (instruction pc : ℕ) (regs memory : List ℕ) :
    Option (ℕ × List ℕ × List ℕ) :=
  let opcode := instruction / 8192 % 8
  let regSrc := instruction / 1024 % 8
  let regDst := instruction / 128 % 8
  let imm := instruction % 128
  if regDst = 0 ∧ (opcode = 7 ∨ opcode = 4 ∨ opcode = 1) then
    some (valid_pc (pc + 1), regs, memory)
  else if opcode = 7 then
    some (valid_pc (pc + 1),
      if regs.getD regSrc 0 < sign_extend_7 imm then regs.set regDst 1
      else regs.set regDst 0,
      memory)
  else if opcode = 4 then
    some (valid_pc (pc + 1),
      regs.set regDst
        (keep_16bits
          ((memory.getD (effective_address (regs.getD regSrc 0) imm) 0 : ℕ) : ℤ)).toNat,
      memory)
  else if opcode = 5 then
    some (valid_pc (pc + 1), regs,
      memory.set (effective_address (regs.getD regSrc 0) imm) (regs.getD regDst 0))
  else if opcode = 6 then
    if regs.getD regSrc 0 = regs.getD regDst 0 then
      some (valid_pc ((pc : ℤ) + 1 + sign_number_converter imm 7), regs, memory)
    else some (valid_pc (pc + 1), regs, memory)
  else if opcode = 1 then
    some (valid_pc (pc + 1),
      regs.set regDst
        (keep_16bits ((regs.getD regSrc 0 : ℤ) + sign_number_converter imm 7)).toNat,
      memory)
  else none

/-- Models instruction_0R (sim.py lines 144-152).  opcode =
(instruction & 57344) >> 13, imm = instruction & 8191. -/
def instruction_0R (instruction pc : ℕ) (regs memory : List ℕ) :
    ℕ × List ℕ × List ℕ :=
  let opcode := instruction / 8192 % 8
  let imm := instruction % 8192
  if opcode = 2 then (valid_pc imm, regs, memory)
  else if opcode = 3 then
    (valid_pc imm, regs.set 7 (keep_16bits ((pc : ℤ) + 1)).toNat, memory)
  else (valid_pc pc, regs, memory)

/-- Models simulation (sim.py lines 62-72): fetch memory[pc % 8192],
inspect (instruction & 57344) >> 13 and dispatch to the three format
handlers. -/
def simulation (pc : ℕ) (regs memory : List ℕ) :
    Option (ℕ × List ℕ × List ℕ) :=
  let instruction := memory.getD (pc % 8192) 0
  if instruction / 8192 % 8 = 0 then some (instruction_3R instruction pc regs memory)
  else if instruction / 8192 % 8 = 2 ∨ instruction / 8192 % 8 = 3 then
    some (instruction_0R instruction pc regs memory)
  else instruction_2R instruction pc regs memory

/-- Outcome of one iteration of the while loop in main. -/
inductive StepResult
  | halted (pc : ℕ) (regs memory : List ℕ)
  | running (pc : ℕ) (regs memory : List ℕ)
  | stuck
  deriving DecidableEq

/-- Models one iteration of the run loop in main (sim.py lines 204-212):
call simulation, then halt when new_pc == old_pc and
memory[old_pc % 8191] >> 13 == 0b010; the memory consulted by the halt
check is the one simulation returned, since Python mutates the list in
place.  Note the modulus 8191 in the halt check, against 8192 at every
other fetch. -/
def run_step (old_pc : ℕ) (regs memory : List ℕ) : StepResult :=
  match simulation old_pc regs memory with
  | none => StepResult.stuck
  | some (new_pc, new_regs, new_memory) =>
    if new_pc = old_pc ∧ new_memory.getD (old_pc % 8191) 0 / 8192 = 2 then
      StepResult.halted new_pc new_regs new_memory
    else StepResult.running new_pc new_regs new_memory

/-- The three ValueError cases of load_machine_code (sim.py lines 15-37):
an unparseable line, an address out of sequence, an address at or beyond
the memory size. -/
inductive LoadError
  | parseFail
  | sequence
  | capacity
  deriving DecidableEq

/-- Models load_machine_code (sim.py lines 15-37).  The textual regex match
of a line is external I/O; a line is embedded as its match result, none
when the pattern does not match and some (addr, instr) otherwise.  Python
mutates mem in place and lets the ValueError propagate at once, so an
error carries the memory as written so far and no later line is
processed. -/
def load_machine_code :
    List (Option (ℕ × ℕ)) → List ℕ → ℕ → Except (LoadError × List ℕ) (List ℕ)
  | [], mem, _ => Except.ok mem
  | line :: rest, mem, expectedaddr =>
    match line with
    | none => Except.error (LoadError.parseFail, mem)
    | some (addr, instr) =>
      if addr ≠ expectedaddr then Except.error (LoadError.sequence, mem)
      else if mem.length ≤ addr then Except.error (LoadError.capacity, mem)
      else load_machine_code rest (mem.set addr instr) (expectedaddr + 1)

/-- A machine-code file of n lines with consecutive addresses starting at
exp, each carrying instruction word 0. -/
def seqFrom : ℕ → ℕ → List (Option (ℕ × ℕ))
  | _, 0 => []
  | exp, n + 1 => some (exp, 0) :: seqFrom (exp + 1) n

/-- The zero-initialized register file of main (sim.py line 194). -/
def regs_init : List ℕ := List.replicate 8 0

/-- Memory for the C2 witness: word 8197 at address 0 is ADDI with
destination-register field 0 (selector 001, regSrc 0, regDst 0, imm 5). -/
def memC2 : List ℕ := (List.replicate 8192 0).set 0 8197

/-- Memory for claim C1: word 24575 (J with 13-bit immediate 8191, format
selector 010) at address 8191, zeros elsewhere.  Starting at pc 0, the
zero words (ADD with destination 0) walk the pc up to 8191, so the state
below is reachable from the zero-initialized start. -/
def memC1 : List ℕ := (List.replicate 8192 0).set 8191 24575

/-- Memory for claim C3: word 24575 (J 8191, selector 010) at address 0 and
word 32767 (JAL with 13-bit immediate 8191, selector 011) at address 8191.
Executing the J at pc 0 reaches pc 8191, so the state below is reachable
from the zero-initialized start. -/
def memC3 : List ℕ := ((List.replicate 8192 0).set 0 24575).set 8191 32767

/-- Memory for claim C4: word 58688 at address 0 is SLTI (selector 111)
with regSrc 1, regDst 2 and immediate 64, whose sign bit is set (signed
value -64, unsigned sign-extended pattern 65472). -/
def memC4 : List ℕ := (List.replicate 8192 0).set 0 58688

/-- Register file for the C6 witness: register 1 holds 65535 and register 2
holds 2, so the ADD exercises the wraparound example ADD(65535, 2) = 1. -/
def regsC6 : List ℕ := ((List.replicate 8 0).set 1 65535).set 2 2

/-- Memory for the C6 witness: word 1328 at address 0 is ADD (selector 000,
opcode 0000) with regSrcA 1, regSrcB 2, regDst 3. -/
def memC6 : List ℕ := (List.replicate 8192 0).set 0 1328

/-- Register file for the C7 witness: register 1 holds 65535, so the
effective address (65535 + 10) % 8192 = 9 wraps into range. -/
def regsC7 : List ℕ := (List.replicate 8 0).set 1 65535

/-- Memory for the C7 witness: word 34058 at address 0 is LW (selector 100)
with regSrc 1, regDst 2, immediate 10; the word 77 sits at address 9. -/
def memC7 : List ℕ := ((List.replicate 8192 0).set 0 34058).set 9 77

/-- Memory for the C8 witness: word 53 at address 0 has selector 000,
undefined opcode 0101, regDst 3. -/
def memC8 : List ℕ := (List.replicate 8192 0).set 0 53

section helper_lemmas

theorem getD_set_self (l : List ℕ) (i v : ℕ) (h : i < l.length) :
    (l.set i v).getD i 0 = v := by
  induction l generalizing i with
  | nil => simp at h
  | cons a t ih =>
    cases i with
    | zero => rfl
    | succ n => exact ih n (by simpa using h)

theorem getD_set_ne (l : List ℕ) (i j v : ℕ) (h : i ≠ j) :
    (l.set i v).getD j 0 = l.getD j 0 := by
  induction l generalizing i j with
  | nil => rfl
  | cons a t ih =>
    cases i with
    | zero =>
      cases j with
      | zero => exact absurd rfl h
      | succ m => rfl
    | succ n =>
      cases j with
      | zero => rfl
      | succ m => exact ih n m (by omega)

theorem getD_replicate (n i a : ℕ) (h : i < n) :
    (List.replicate n a).getD i 0 = a := by
  induction n generalizing i with
  | zero => omega
  | succ m ih =>
    cases i with
    | zero => rfl
    | succ k => exact ih k (by omega)

theorem valid_pc_lt (pc : ℤ) : valid_pc pc < 65536 := by
  unfold valid_pc; omega

theorem valid_pc_coe (n : ℕ) : valid_pc (n : ℤ) = n % 65536 := by
  unfold valid_pc; omega

theorem valid_pc_succ (pc : ℕ) : valid_pc ((pc : ℤ) + 1) = (pc + 1) % 65536 := by
  unfold valid_pc; omega

theorem keep_16bits_toNat (x : ℕ) : (keep_16bits (x : ℤ)).toNat = x % 65536 := by
  unfold keep_16bits; omega

theorem keep_16bits_add (a b : ℕ) :
    (keep_16bits ((a : ℤ) + (b : ℤ))).toNat = (a + b) % 65536 := by
  unfold keep_16bits; omega

end helper_lemmas

/-- Claim C5: for every 7-bit input x in 0..127, the 16-bit unsigned
sign-extended form sign_extend_7 x and the native signed integer
sign_number_converter x 7 are congruent modulo 65536. -/
theorem sign_extension_agrees_mod_65536 :
    ∀ x : Fin 128,
      ((sign_extend_7 x.val : ℕ) : ℤ) % 65536 = sign_number_converter x.val 7 % 65536 := by
  decide

section executor_lemmas

theorem instruction_3R_reg0 (i pc : ℕ) (regs memory : List ℕ) :
    ((instruction_3R i pc regs memory).2.1).getD 0 0 = regs.getD 0 0 := by
  simp only [instruction_3R]
  split_ifs with h8 hd h0 h1 h2 h3 h4 hlt <;>
    first
      | rfl
      | exact getD_set_ne _ _ _ _ (by omega)

theorem instruction_0R_reg0 (i pc : ℕ) (regs memory : List ℕ) :
    ((instruction_0R i pc regs memory).2.1).getD 0 0 = regs.getD 0 0 := by
  simp only [instruction_0R]
  split_ifs with h2 h3 <;>
    first
      | rfl
      | exact getD_set_ne _ _ _ _ (by omega)

theorem instruction_2R_reg0 (i pc : ℕ) (regs memory : List ℕ)
    (t : ℕ × List ℕ × List ℕ)
    (ht : instruction_2R i pc regs memory = some t) :
    t.2.1.getD 0 0 = regs.getD 0 0 := by
  simp only [instruction_2R] at ht
  split_ifs at ht with hg h7 hcmp h4 h5 h6 heq h1
  all_goals
    first
      | exact Option.noConfusion ht
      | (injection ht with ht; subst ht;
         first
           | rfl
           | exact getD_set_ne _ _ _ _ (by omega))

theorem simulation_reg0 (pc : ℕ) (regs memory : List ℕ)
    (t : ℕ × List ℕ × List ℕ)
    (ht : simulation pc regs memory = some t) :
    t.2.1.getD 0 0 = regs.getD 0 0 := by
  simp only [simulation] at ht
  split_ifs at ht with h0 h23
  · injection ht with ht; subst ht; exact instruction_3R_reg0 _ _ _ _
  · injection ht with ht; subst ht; exact instruction_0R_reg0 _ _ _ _
  · exact instruction_2R_reg0 _ _ _ _ _ ht

theorem instruction_3R_dst0 (i pc : ℕ) (regs memory : List ℕ)
    (hd : i / 16 % 8 = 0) :
    (instruction_3R i pc regs memory).2.1 = regs ∧
    (i % 16 ≠ 8 → (instruction_3R i pc regs memory).1 = valid_pc ((pc : ℤ) + 1)) ∧
    (i % 16 = 8 →
      (instruction_3R i pc regs memory).1 = valid_pc (regs.getD (i / 1024 % 8) 0)) := by
  simp only [instruction_3R]
  split_ifs with h8 hd0 <;>
    first
      | exact ⟨rfl, fun hne => absurd h8 hne, fun _ => rfl⟩
      | exact ⟨rfl, fun _ => rfl, fun h9 => absurd h9 h8⟩
      | omega

theorem instruction_2R_dst0 (i pc : ℕ) (regs memory : List ℕ)
    (t : ℕ × List ℕ × List ℕ)
    (hd : i / 128 % 8 = 0)
    (ht : instruction_2R i pc regs memory = some t) :
    t.2.1 = regs ∧ (i / 8192 % 8 ≠ 6 → t.1 = valid_pc ((pc : ℤ) + 1)) := by
  simp only [instruction_2R] at ht
  split_ifs at ht with hg h7 hcmp h4 h5 h6 heq h1
  all_goals
    first
      | exact Option.noConfusion ht
      | (injection ht with ht; subst ht;
         first
           | exact ⟨rfl, fun _ => rfl⟩
           | omega
           | exact ⟨rfl, fun hne => absurd (by omega) hne⟩)

end executor_lemmas

theorem memC2_fetch : memC2.getD (0 % 8192) 0 = 8197 := by
  rw [show (0 : ℕ) % 8192 = 0 from rfl, memC2]
  exact getD_set_self _ _ _ (by rw [List.length_replicate]; omega)

theorem simC2 : simulation 0 regs_init memC2 = some (1, regs_init, memC2) := by
  simp only [simulation, memC2_fetch]
  norm_num [instruction_2R, valid_pc]

/-- Claim C2: starting from any state in which register 0 holds 0 (in
particular the zero-initialized start state), register 0 still holds 0
after each simulation step; moreover an instruction whose
destination-register field is 0 performs no register write and still
produces the normal next PC: a three-register instruction advances to
(pc + 1) % 65536 (or to the source-register value mod 65536 for JR, whose
next PC does not depend on the destination field), and the
register-writing two-register opcodes advance to (pc + 1) % 65536. -/
theorem register_zero_invariant (pc : ℕ) (regs memory : List ℕ)
    (p : ℕ) (r m : List ℕ)
    (hsim : simulation pc regs memory = some (p, r, m)) :
    (regs.getD 0 0 = 0 → r.getD 0 0 = 0) ∧
    (memory.getD (pc % 8192) 0 / 8192 % 8 = 0 →
      memory.getD (pc % 8192) 0 / 16 % 8 = 0 →
      r = regs ∧
      (memory.getD (pc % 8192) 0 % 16 ≠ 8 → p = (pc + 1) % 65536) ∧
      (memory.getD (pc % 8192) 0 % 16 = 8 →
        p = regs.getD (memory.getD (pc % 8192) 0 / 1024 % 8) 0 % 65536)) ∧
    (memory.getD (pc % 8192) 0 / 8192 % 8 ≠ 0 →
      memory.getD (pc % 8192) 0 / 8192 % 8 ≠ 2 →
      memory.getD (pc % 8192) 0 / 8192 % 8 ≠ 3 →
      memory.getD (pc % 8192) 0 / 128 % 8 = 0 →
      r = regs ∧ (memory.getD (pc % 8192) 0 / 8192 % 8 ≠ 6 →
        p = (pc + 1) % 65536)) := by
  refine ⟨?_, ?_, ?_⟩
  · intro h0
    have h := simulation_reg0 pc regs memory (p, r, m) hsim
    rw [show ((p, r, m).2.1) = r from rfl] at h
    rw [h, h0]
  · intro hsel hd
    simp only [simulation] at hsim
    rw [if_pos hsel] at hsim
    injection hsim with h2
    have h3 := instruction_3R_dst0 (memory.getD (pc % 8192) 0) pc regs memory hd
    rw [h2] at h3
    refine ⟨h3.1, fun hne => ?_, fun h8 => ?_⟩
    · have hp := h3.2.1 hne
      rw [show ((p, r, m).1) = p from rfl] at hp
      rw [hp, valid_pc_succ]
    · have hp := h3.2.2 h8
      rw [show ((p, r, m).1) = p from rfl] at hp
      rw [hp, valid_pc_coe]
  · intro hs0 hs2 hs3 hd
    simp only [simulation] at hsim
    rw [if_neg hs0, if_neg (by tauto)] at hsim
    have h4 := instruction_2R_dst0 (memory.getD (pc % 8192) 0) pc regs memory
      (p, r, m) hd hsim
    refine ⟨h4.1, fun h6 => ?_⟩
    rw [show ((p, r, m).1) = p from rfl] at h4
    rw [h4.2 h6, valid_pc_succ]

/-- Witness for claim C2: the ADDI at address 0 of memC2 targets register 0;
after the step register 0 still holds 0, no register was written, and the
next PC is 1. -/
theorem register_zero_invariant_witness :
    (regs_init.getD 0 0 = 0 → regs_init.getD 0 0 = 0) ∧
    (memC2.getD (0 % 8192) 0 / 8192 % 8 = 0 →
      memC2.getD (0 % 8192) 0 / 16 % 8 = 0 →
      regs_init = regs_init ∧
      (memC2.getD (0 % 8192) 0 % 16 ≠ 8 → 1 = (0 + 1) % 65536) ∧
      (memC2.getD (0 % 8192) 0 % 16 = 8 →
        1 = regs_init.getD (memC2.getD (0 % 8192) 0 / 1024 % 8) 0 % 65536)) ∧
    (memC2.getD (0 % 8192) 0 / 8192 % 8 ≠ 0 →
      memC2.getD (0 % 8192) 0 / 8192 % 8 ≠ 2 →
      memC2.getD (0 % 8192) 0 / 8192 % 8 ≠ 3 →
      memC2.getD (0 % 8192) 0 / 128 % 8 = 0 →
      regs_init = regs_init ∧ (memC2.getD (0 % 8192) 0 / 8192 % 8 ≠ 6 →
        1 = (0 + 1) % 65536)) :=
  register_zero_invariant 0 regs_init memC2 1 regs_init memC2 simC2

theorem instruction_3R_pc_lt (i pc : ℕ) (regs memory : List ℕ) :
    (instruction_3R i pc regs memory).1 < 65536 := by
  simp only [instruction_3R]
  split_ifs <;> dsimp only <;> apply valid_pc_lt

theorem instruction_0R_pc_lt (i pc : ℕ) (regs memory : List ℕ) :
    (instruction_0R i pc regs memory).1 < 65536 := by
  simp only [instruction_0R]
  split_ifs <;> dsimp only <;> apply valid_pc_lt

theorem instruction_2R_total (i pc : ℕ) (regs memory : List ℕ)
    (h0 : i / 8192 % 8 ≠ 0) (h2 : i / 8192 % 8 ≠ 2) (h3 : i / 8192 % 8 ≠ 3) :
    ∃ p r m, instruction_2R i pc regs memory = some (p, r, m) ∧ p < 65536 := by
  simp only [instruction_2R]
  split_ifs <;> first | exact ⟨_, _, _, rfl, valid_pc_lt _⟩ | omega

/-- Claim C10: one simulation step is total: for every pc, register file
and memory the step returns a result (the None fallthrough of
instruction_2R is unreachable), the returned next PC is below 65536, the
fetch index and every lw/sw effective address are below 8192, and every
decoded register index is below 8. -/
theorem simulation_total (pc : ℕ) (regs memory : List ℕ) :
    ∃ p r m, simulation pc regs memory = some (p, r, m) ∧ p < 65536 ∧
      pc % 8192 < 8192 ∧
      memory.getD (pc % 8192) 0 / 1024 % 8 < 8 ∧
      memory.getD (pc % 8192) 0 / 128 % 8 < 8 ∧
      memory.getD (pc % 8192) 0 / 16 % 8 < 8 ∧
      (∀ rs imm, effective_address rs imm < 8192) := by
  have haddr : ∀ rs imm : ℕ, effective_address rs imm < 8192 := by
    intro rs imm; unfold effective_address; omega
  simp only [simulation]
  split_ifs with hs0 hs23
  · exact ⟨_, _, _, rfl, instruction_3R_pc_lt _ _ _ _,
      by omega, by omega, by omega, by omega, haddr⟩
  · exact ⟨_, _, _, rfl, instruction_0R_pc_lt _ _ _ _,
      by omega, by omega, by omega, by omega, haddr⟩
  · obtain ⟨p, r, m, heq, hlt⟩ :=
      instruction_2R_total (memory.getD (pc % 8192) 0) pc regs memory hs0
        (by tauto) (by tauto)
    exact ⟨p, r, m, heq, hlt, by omega, by omega, by omega, by omega, haddr⟩

theorem run_step_eq (old_pc p : ℕ) (regs memory r m : List ℕ)
    (h : simulation old_pc regs memory = some (p, r, m)) :
    run_step old_pc regs memory =
      if p = old_pc ∧ m.getD (old_pc % 8191) 0 / 8192 = 2 then
        StepResult.halted p r m
      else StepResult.running p r m := by
  unfold run_step
  rw [h]

theorem memC1_fetch : memC1.getD (8191 % 8192) 0 = 24575 := by
  rw [show (8191 : ℕ) % 8192 = 8191 from rfl, memC1]
  exact getD_set_self _ _ _ (by rw [List.length_replicate]; omega)

theorem memC1_at0 : memC1.getD (8191 % 8191) 0 = 0 := by
  rw [show (8191 : ℕ) % 8191 = 0 from rfl, memC1,
    getD_set_ne _ _ _ _ (by omega)]
  exact getD_replicate _ _ _ (by omega)

theorem simC1 : simulation 8191 regs_init memC1 = some (8191, regs_init, memC1) := by
  simp only [simulation, memC1_fetch]
  norm_num [instruction_0R, valid_pc]
  omega

/-- Claim C1 (code bug): at pc 8191 with the self-jump J 8191 stored at
address 8191, the candidate next PC equals the current PC and the word
fetched at Memory[pc % 8192] has format selector 010, i.e. the claimed
halt condition holds; yet the run loop does not halt, because the halt
check of main reads Memory[pc % 8191] = Memory[0] instead, so the loop
keeps running at pc 8191 forever. -/
theorem halt_check_mod_8191_bug :
    simulation 8191 regs_init memC1 = some (8191, regs_init, memC1) ∧
    memC1.getD (8191 % 8192) 0 / 8192 % 8 = 2 ∧
    run_step 8191 regs_init memC1 = StepResult.running 8191 regs_init memC1 := by
  refine ⟨simC1, ?_, ?_⟩
  · rw [memC1_fetch]
  · rw [run_step_eq _ _ _ _ _ _ simC1, memC1_at0]
    norm_num

theorem memC3_fetch : memC3.getD (8191 % 8192) 0 = 32767 := by
  rw [show (8191 : ℕ) % 8192 = 8191 from rfl, memC3]
  exact getD_set_self _ _ _
    (by rw [List.length_set, List.length_replicate]; omega)

theorem memC3_at0 : memC3.getD (8191 % 8191) 0 = 24575 := by
  rw [show (8191 : ℕ) % 8191 = 0 from rfl, memC3,
    getD_set_ne _ _ _ _ (by omega)]
  exact getD_set_self _ _ _ (by rw [List.length_replicate]; omega)

theorem simC3 : simulation 8191 regs_init memC3 =
    some (8191, regs_init.set 7 8192, memC3) := by
  simp only [simulation, memC3_fetch]
  norm_num [instruction_0R, valid_pc, keep_16bits]
  exact ⟨by omega, by rw [show Int.toNat 8192 = 8192 from by omega]⟩

/-- Claim C3 (code bug): the instruction executed at pc 8191 in memC3 is a
JAL (format selector 011) whose 13-bit immediate 8191 equals its own
address, and this iteration makes the run loop halt: the mod-8191 halt
check reads Memory[0], whose selector is 010.  So a self-targeting JAL
can cause the halt transition, against the claim that it never halts. -/
theorem jal_self_jump_halts_bug :
    memC3.getD (8191 % 8192) 0 / 8192 % 8 = 3 ∧
    memC3.getD (8191 % 8192) 0 % 8192 = 8191 ∧
    run_step 8191 regs_init memC3 =
      StepResult.halted 8191 (regs_init.set 7 8192) memC3 := by
  refine ⟨?_, ?_, ?_⟩
  · rw [memC3_fetch]
  · rw [memC3_fetch]
  · rw [run_step_eq _ _ _ _ _ _ simC3, memC3_at0]
    norm_num

theorem sim_dispatch_3R (pc : ℕ) (regs memory : List ℕ)
    (hsel : memory.getD (pc % 8192) 0 / 8192 % 8 = 0) :
    simulation pc regs memory =
      some (instruction_3R (memory.getD (pc % 8192) 0) pc regs memory) := by
  simp only [simulation]
  rw [if_pos hsel]

theorem sim_dispatch_0R (pc : ℕ) (regs memory : List ℕ)
    (hsel : memory.getD (pc % 8192) 0 / 8192 % 8 = 2 ∨
      memory.getD (pc % 8192) 0 / 8192 % 8 = 3) :
    simulation pc regs memory =
      some (instruction_0R (memory.getD (pc % 8192) 0) pc regs memory) := by
  simp only [simulation]
  rw [if_neg (by omega), if_pos hsel]

theorem sim_dispatch_2R (pc : ℕ) (regs memory : List ℕ)
    (hs0 : memory.getD (pc % 8192) 0 / 8192 % 8 ≠ 0)
    (hs2 : memory.getD (pc % 8192) 0 / 8192 % 8 ≠ 2)
    (hs3 : memory.getD (pc % 8192) 0 / 8192 % 8 ≠ 3) :
    simulation pc regs memory =
      instruction_2R (memory.getD (pc % 8192) 0) pc regs memory := by
  simp only [simulation]
  rw [if_neg hs0, if_neg (by tauto)]

theorem instruction_2R_slti (i pc : ℕ) (regs memory : List ℕ)
    (hsel : i / 8192 % 8 = 7) (hdst : i / 128 % 8 ≠ 0) :
    instruction_2R i pc regs memory =
      some (valid_pc ((pc : ℤ) + 1),
        if regs.getD (i / 1024 % 8) 0 < sign_extend_7 (i % 128) then
          regs.set (i / 128 % 8) 1
        else regs.set (i / 128 % 8) 0,
        memory) := by
  simp only [instruction_2R]
  rw [if_neg (by omega), if_pos hsel]

theorem instruction_2R_lw (i pc : ℕ) (regs memory : List ℕ)
    (hsel : i / 8192 % 8 = 4) (hdst : i / 128 % 8 ≠ 0) :
    instruction_2R i pc regs memory =
      some (valid_pc ((pc : ℤ) + 1),
        regs.set (i / 128 % 8)
          (keep_16bits
            ((memory.getD
              (effective_address (regs.getD (i / 1024 % 8) 0) (i % 128)) 0 : ℕ) : ℤ)).toNat,
        memory) := by
  simp only [instruction_2R]
  rw [if_neg (by omega), if_neg (by omega), if_pos hsel]

theorem instruction_2R_sw (i pc : ℕ) (regs memory : List ℕ)
    (hsel : i / 8192 % 8 = 5) :
    instruction_2R i pc regs memory =
      some (valid_pc ((pc : ℤ) + 1), regs,
        memory.set (effective_address (regs.getD (i / 1024 % 8) 0) (i % 128))
          (regs.getD (i / 128 % 8) 0)) := by
  simp only [instruction_2R]
  rw [if_neg (by omega), if_neg (by omega), if_neg (by omega), if_pos hsel]

theorem instruction_3R_add (i pc : ℕ) (regs memory : List ℕ)
    (hop : i % 16 = 0) (hdst : i / 16 % 8 ≠ 0) :
    instruction_3R i pc regs memory =
      (valid_pc ((pc : ℤ) + 1),
        regs.set (i / 16 % 8)
          (keep_16bits
            ((regs.getD (i / 1024 % 8) 0 : ℤ) + (regs.getD (i / 128 % 8) 0 : ℤ))).toNat,
        memory) := by
  simp only [instruction_3R]
  rw [if_neg (by omega), if_neg hdst, if_pos hop]

theorem instruction_3R_sub (i pc : ℕ) (regs memory : List ℕ)
    (hop : i % 16 = 1) (hdst : i / 16 % 8 ≠ 0) :
    instruction_3R i pc regs memory =
      (valid_pc ((pc : ℤ) + 1),
        regs.set (i / 16 % 8)
          (keep_16bits
            ((regs.getD (i / 1024 % 8) 0 : ℤ) - (regs.getD (i / 128 % 8) 0 : ℤ))).toNat,
        memory) := by
  simp only [instruction_3R]
  rw [if_neg (by omega), if_neg hdst, if_neg (by omega), if_pos hop]

theorem instruction_3R_unknown (i pc : ℕ) (regs memory : List ℕ)
    (h8 : i % 16 ≠ 8) (h0 : i % 16 ≠ 0) (h1 : i % 16 ≠ 1)
    (h2 : i % 16 ≠ 2) (h3 : i % 16 ≠ 3) (h4 : i % 16 ≠ 4) :
    instruction_3R i pc regs memory = (valid_pc ((pc : ℤ) + 1), regs, memory) := by
  simp only [instruction_3R]
  by_cases hd : i / 16 % 8 = 0
  · rw [if_neg h8, if_pos hd]
  · rw [if_neg h8, if_neg hd, if_neg h0, if_neg h1, if_neg h2, if_neg h3, if_neg h4]

theorem memC4_fetch : memC4.getD (0 % 8192) 0 = 58688 := by
  rw [show (0 : ℕ) % 8192 = 0 from rfl, memC4]
  exact getD_set_self _ _ _ (by rw [List.length_replicate]; omega)

theorem simC4 : simulation 0 regs_init memC4 = some (1, regs_init.set 2 1, memC4) := by
  rw [sim_dispatch_2R 0 regs_init memC4 (by rw [memC4_fetch]; norm_num)
      (by rw [memC4_fetch]; norm_num) (by rw [memC4_fetch]; norm_num), memC4_fetch,
    instruction_2R_slti 58688 0 regs_init memC4 (by norm_num) (by norm_num)]
  norm_num [valid_pc]
  decide

/-- Claim C4 counterexample: executing the SLTI word 58688 (immediate 64,
signed value -64) with regSrc holding 0 stores 1 into regDst, although the
unsigned value of regSrc (0) is not less than the signed value of the
immediate (-64); so the code does not compare against the signed numeric
value of the immediate. -/
theorem slti_signed_compare_counterexample :
    simulation 0 regs_init memC4 = some (1, regs_init.set 2 1, memC4) ∧
    (regs_init.set 2 1).getD 2 0 = 1 ∧
    sign_number_converter (58688 % 128) 7 = -64 ∧
    ¬((regs_init.getD (58688 / 1024 % 8) 0 : ℤ) <
        sign_number_converter (58688 % 128) 7) :=
  ⟨simC4, by decide, by decide, by decide⟩

/-- Claim C4 (amended): a SLTI (format selector 111) with nonzero
destination-register field stores 1 into regDst exactly when the unsigned
16-bit value of regSrc is less than the 16-bit unsigned sign-extended
pattern sign_extend_7 of the 7-bit immediate (not its signed numeric
value), stores 0 otherwise, and the next PC is (pc + 1) % 65536; for an
immediate with sign bit set that pattern is 65408 + immediate. -/
theorem slti_unsigned_compare (pc : ℕ) (regs memory : List ℕ)
    (hsel : memory.getD (pc % 8192) 0 / 8192 % 8 = 7)
    (hdst : memory.getD (pc % 8192) 0 / 128 % 8 ≠ 0) :
    simulation pc regs memory =
      some ((pc + 1) % 65536,
        if regs.getD (memory.getD (pc % 8192) 0 / 1024 % 8) 0 <
            sign_extend_7 (memory.getD (pc % 8192) 0 % 128) then
          regs.set (memory.getD (pc % 8192) 0 / 128 % 8) 1
        else regs.set (memory.getD (pc % 8192) 0 / 128 % 8) 0,
        memory) ∧
    (memory.getD (pc % 8192) 0 % 128 / 64 % 2 = 1 →
      sign_extend_7 (memory.getD (pc % 8192) 0 % 128) =
        65408 + memory.getD (pc % 8192) 0 % 128) := by
  constructor
  · rw [sim_dispatch_2R pc regs memory (by omega) (by omega) (by omega),
      instruction_2R_slti _ _ _ _ hsel hdst, valid_pc_succ]
  · intro hbit
    have h128 : memory.getD (pc % 8192) 0 % 128 < 128 := by omega
    have hall : ∀ x : Fin 128, x.val / 64 % 2 = 1 → sign_extend_7 x.val = 65408 + x.val := by
      decide
    exact hall ⟨memory.getD (pc % 8192) 0 % 128, h128⟩ hbit

/-- Witness for claim C4 (amended) at the SLTI word 58688 of memC4. -/
theorem slti_unsigned_compare_witness :
    simulation 0 regs_init memC4 =
      some ((0 + 1) % 65536,
        if regs_init.getD (memC4.getD (0 % 8192) 0 / 1024 % 8) 0 <
            sign_extend_7 (memC4.getD (0 % 8192) 0 % 128) then
          regs_init.set (memC4.getD (0 % 8192) 0 / 128 % 8) 1
        else regs_init.set (memC4.getD (0 % 8192) 0 / 128 % 8) 0,
        memC4) ∧
    (memC4.getD (0 % 8192) 0 % 128 / 64 % 2 = 1 →
      sign_extend_7 (memC4.getD (0 % 8192) 0 % 128) =
        65408 + memC4.getD (0 % 8192) 0 % 128) :=
  slti_unsigned_compare 0 regs_init memC4 (by rw [memC4_fetch])
    (by rw [memC4_fetch]; norm_num)

/-- Claim C6: an ADD (three-register format, opcode 0000) with nonzero
destination stores (a + b) % 65536 into the destination register and a SUB
(opcode 0001) stores the two's-complement wraparound (a - b) mod 65536,
where a and b are the two source register values; in both cases the next
PC is (pc + 1) % 65536. -/
theorem add_sub_wraparound (pc : ℕ) (regs memory : List ℕ) (a b : ℕ)
    (hsel : memory.getD (pc % 8192) 0 / 8192 % 8 = 0)
    (hdst : memory.getD (pc % 8192) 0 / 16 % 8 ≠ 0)
    (hlen : regs.length = 8)
    (ha : regs.getD (memory.getD (pc % 8192) 0 / 1024 % 8) 0 = a)
    (hb : regs.getD (memory.getD (pc % 8192) 0 / 128 % 8) 0 = b) :
    (memory.getD (pc % 8192) 0 % 16 = 0 →
      simulation pc regs memory =
        some ((pc + 1) % 65536,
          regs.set (memory.getD (pc % 8192) 0 / 16 % 8) ((a + b) % 65536),
          memory) ∧
      (regs.set (memory.getD (pc % 8192) 0 / 16 % 8) ((a + b) % 65536)).getD
          (memory.getD (pc % 8192) 0 / 16 % 8) 0 = (a + b) % 65536) ∧
    (memory.getD (pc % 8192) 0 % 16 = 1 →
      ∃ r, simulation pc regs memory = some ((pc + 1) % 65536, r, memory) ∧
        (r.getD (memory.getD (pc % 8192) 0 / 16 % 8) 0 : ℤ) =
          ((a : ℤ) - (b : ℤ)) % 65536) := by
  constructor
  · intro hop
    constructor
    · rw [sim_dispatch_3R pc regs memory hsel,
        instruction_3R_add _ _ _ _ hop hdst, ha, hb, valid_pc_succ,
        keep_16bits_add]
    · exact getD_set_self _ _ _ (by rw [hlen]; omega)
  · intro hop
    rw [sim_dispatch_3R pc regs memory hsel,
      instruction_3R_sub _ _ _ _ hop hdst, ha, hb, valid_pc_succ]
    refine ⟨_, rfl, ?_⟩
    rw [getD_set_self _ _ _ (by rw [hlen]; omega)]
    unfold keep_16bits
    omega

theorem memC6_fetch : memC6.getD (0 % 8192) 0 = 1328 := by
  rw [show (0 : ℕ) % 8192 = 0 from rfl, memC6]
  exact getD_set_self _ _ _ (by rw [List.length_replicate]; omega)

/-- Witness for claim C6: the ADD at address 0 of memC6 adds 65535 and 2
and stores (65535 + 2) % 65536 = 1. -/
theorem add_sub_wraparound_witness :
    (memC6.getD (0 % 8192) 0 % 16 = 0 →
      simulation 0 regsC6 memC6 =
        some ((0 + 1) % 65536,
          regsC6.set (memC6.getD (0 % 8192) 0 / 16 % 8) ((65535 + 2) % 65536),
          memC6) ∧
      (regsC6.set (memC6.getD (0 % 8192) 0 / 16 % 8) ((65535 + 2) % 65536)).getD
          (memC6.getD (0 % 8192) 0 / 16 % 8) 0 = (65535 + 2) % 65536) ∧
    (memC6.getD (0 % 8192) 0 % 16 = 1 →
      ∃ r, simulation 0 regsC6 memC6 = some ((0 + 1) % 65536, r, memC6) ∧
        (r.getD (memC6.getD (0 % 8192) 0 / 16 % 8) 0 : ℤ) =
          ((65535 : ℤ) - (2 : ℤ)) % 65536) :=
  add_sub_wraparound 0 regsC6 memC6 65535 2 (by rw [memC6_fetch])
    (by rw [memC6_fetch]; norm_num) (by decide)
    (by rw [memC6_fetch]; decide) (by rw [memC6_fetch]; decide)

/-- Claim C7: for every LW (selector 100, with nonzero destination field)
and SW (selector 101) the effective memory address is
(regSrc value + signed 7-bit immediate) reduced modulo 8192, hence always
in 0..8191; LW loads the word at that address (masked to 16 bits) into
regDst and SW stores the value of regDst there, each advancing the PC
to (pc + 1) % 65536. -/
theorem lw_sw_effective_address (pc : ℕ) (regs memory : List ℕ) :
    (∀ rs imm, effective_address rs imm < 8192 ∧
      (effective_address rs imm : ℤ) =
        ((rs : ℤ) + sign_number_converter imm 7) % 8192) ∧
    (memory.getD (pc % 8192) 0 / 8192 % 8 = 4 →
      memory.getD (pc % 8192) 0 / 128 % 8 ≠ 0 →
      simulation pc regs memory =
        some ((pc + 1) % 65536,
          regs.set (memory.getD (pc % 8192) 0 / 128 % 8)
            (memory.getD
              (effective_address
                (regs.getD (memory.getD (pc % 8192) 0 / 1024 % 8) 0)
                (memory.getD (pc % 8192) 0 % 128)) 0 % 65536),
          memory)) ∧
    (memory.getD (pc % 8192) 0 / 8192 % 8 = 5 →
      simulation pc regs memory =
        some ((pc + 1) % 65536, regs,
          memory.set
            (effective_address
              (regs.getD (memory.getD (pc % 8192) 0 / 1024 % 8) 0)
              (memory.getD (pc % 8192) 0 % 128))
            (regs.getD (memory.getD (pc % 8192) 0 / 128 % 8) 0))) := by
  refine ⟨?_, ?_, ?_⟩
  · intro rs imm
    unfold effective_address
    constructor
    · omega
    · omega
  · intro hsel hdst
    rw [sim_dispatch_2R pc regs memory (by omega) (by omega) (by omega),
      instruction_2R_lw _ _ _ _ hsel hdst, valid_pc_succ, keep_16bits_toNat]
  · intro hsel
    rw [sim_dispatch_2R pc regs memory (by omega) (by omega) (by omega),
      instruction_2R_sw _ _ _ _ hsel, valid_pc_succ]

theorem memC7_fetch : memC7.getD (0 % 8192) 0 = 34058 := by
  rw [show (0 : ℕ) % 8192 = 0 from rfl, memC7, getD_set_ne _ _ _ _ (by omega)]
  exact getD_set_self _ _ _ (by rw [List.length_replicate]; omega)

/-- Witness for claim C7 at the LW word 34058 of memC7. -/
theorem lw_sw_effective_address_witness :
    (∀ rs imm, effective_address rs imm < 8192 ∧
      (effective_address rs imm : ℤ) =
        ((rs : ℤ) + sign_number_converter imm 7) % 8192) ∧
    (memC7.getD (0 % 8192) 0 / 8192 % 8 = 4 →
      memC7.getD (0 % 8192) 0 / 128 % 8 ≠ 0 →
      simulation 0 regsC7 memC7 =
        some ((0 + 1) % 65536,
          regsC7.set (memC7.getD (0 % 8192) 0 / 128 % 8)
            (memC7.getD
              (effective_address
                (regsC7.getD (memC7.getD (0 % 8192) 0 / 1024 % 8) 0)
                (memC7.getD (0 % 8192) 0 % 128)) 0 % 65536),
          memC7)) ∧
    (memC7.getD (0 % 8192) 0 / 8192 % 8 = 5 →
      simulation 0 regsC7 memC7 =
        some ((0 + 1) % 65536, regsC7,
          memC7.set
            (effective_address
              (regsC7.getD (memC7.getD (0 % 8192) 0 / 1024 % 8) 0)
              (memC7.getD (0 % 8192) 0 % 128))
            (regsC7.getD (memC7.getD (0 % 8192) 0 / 128 % 8) 0))) :=
  lw_sw_effective_address 0 regsC7 memC7

/-- Claim C8: a three-register-format instruction (selector 000) whose
4-bit opcode is none of 0000, 0001, 0010, 0011, 0100, 1000 is a silent
no-op: registers and memory are returned unchanged and the next PC is
(pc + 1) % 65536. -/
theorem unknown_3R_opcode_noop (pc : ℕ) (regs memory : List ℕ)
    (hsel : memory.getD (pc % 8192) 0 / 8192 % 8 = 0)
    (h0 : memory.getD (pc % 8192) 0 % 16 ≠ 0)
    (h1 : memory.getD (pc % 8192) 0 % 16 ≠ 1)
    (h2 : memory.getD (pc % 8192) 0 % 16 ≠ 2)
    (h3 : memory.getD (pc % 8192) 0 % 16 ≠ 3)
    (h4 : memory.getD (pc % 8192) 0 % 16 ≠ 4)
    (h8 : memory.getD (pc % 8192) 0 % 16 ≠ 8) :
    simulation pc regs memory = some ((pc + 1) % 65536, regs, memory) := by
  rw [sim_dispatch_3R pc regs memory hsel,
    instruction_3R_unknown _ _ _ _ h8 h0 h1 h2 h3 h4, valid_pc_succ]

theorem memC8_fetch : memC8.getD (0 % 8192) 0 = 53 := by
  rw [show (0 : ℕ) % 8192 = 0 from rfl, memC8]
  exact getD_set_self _ _ _ (by rw [List.length_replicate]; omega)

/-- Witness for claim C8 at the undefined-opcode word 53 of memC8. -/
theorem unknown_3R_opcode_noop_witness :
    simulation 0 regs_init memC8 = some ((0 + 1) % 65536, regs_init, memC8) :=
  unknown_3R_opcode_noop 0 regs_init memC8 (by rw [memC8_fetch])
    (by rw [memC8_fetch]; norm_num) (by rw [memC8_fetch]; norm_num)
    (by rw [memC8_fetch]; norm_num) (by rw [memC8_fetch]; norm_num)
    (by rw [memC8_fetch]; norm_num) (by rw [memC8_fetch]; norm_num)

theorem load_ok_iff (lines : List (Option (ℕ × ℕ))) :
    ∀ (mem : List ℕ) (exp : ℕ),
      (∃ m2, load_machine_code lines mem exp = Except.ok m2) ↔
      (∀ k, k < lines.length →
        ∃ instr, lines.getD k none = some (exp + k, instr) ∧
          exp + k < mem.length) := by
  induction lines with
  | nil =>
    intro mem exp
    constructor
    · intro _ k hk
      simp at hk
    · intro _
      exact ⟨mem, rfl⟩
  | cons line rest ih =>
    intro mem exp
    match line with
    | none =>
      constructor
      · intro h
        obtain ⟨m2, hm⟩ := h
        simp only [load_machine_code] at hm
        exact Except.noConfusion hm
      · intro h
        obtain ⟨instr, hinstr, _⟩ := h 0 (by simp)
        simp at hinstr
    | some (addr, instr) =>
      by_cases haddr : addr = exp
      · subst haddr
        by_cases hcap : mem.length ≤ addr
        · constructor
          · intro h
            obtain ⟨m2, hm⟩ := h
            simp only [load_machine_code] at hm
            rw [if_neg (by omega), if_pos hcap] at hm
            exact Except.noConfusion hm
          · intro h
            obtain ⟨i2, _, hlt⟩ := h 0 (by simp)
            omega
        · constructor
          · intro h
            obtain ⟨m2, hm⟩ := h
            simp only [load_machine_code] at hm
            rw [if_neg (by omega), if_neg hcap] at hm
            intro k hk
            cases k with
            | zero => exact ⟨instr, by simp, by omega⟩
            | succ k2 =>
              obtain ⟨i3, h3, hlen3⟩ :=
                ((ih (mem.set addr instr) (addr + 1)).mp ⟨m2, hm⟩) k2
                  (by simpa using hk)
              rw [List.length_set] at hlen3
              refine ⟨i3, ?_, by omega⟩
              rw [List.getD_cons_succ, show addr + (k2 + 1) = addr + 1 + k2 from by omega]
              exact h3
          · intro h
            have hrest : ∀ k, k < rest.length →
                ∃ i3, rest.getD k none = some (addr + 1 + k, i3) ∧
                  addr + 1 + k < (mem.set addr instr).length := by
              intro k hk
              obtain ⟨i3, h3, hlen3⟩ := h (k + 1) (by simp only [List.length_cons]; omega)
              rw [List.getD_cons_succ] at h3
              rw [List.length_set]
              refine ⟨i3, ?_, by omega⟩
              rw [show addr + 1 + k = addr + (k + 1) from by omega]
              exact h3
            obtain ⟨m2, hm⟩ := (ih (mem.set addr instr) (addr + 1)).mpr hrest
            refine ⟨m2, ?_⟩
            simp only [load_machine_code]
            rw [if_neg (by omega), if_neg hcap]
            exact hm
      · constructor
        · intro h
          obtain ⟨m2, hm⟩ := h
          simp only [load_machine_code] at hm
          rw [if_pos (by omega)] at hm
          exact Except.noConfusion hm
        · intro h
          obtain ⟨i2, hi2, _⟩ := h 0 (by simp)
          simp only [List.getD_cons_zero, Option.some.injEq, Prod.mk.injEq] at hi2
          omega

theorem load_gap :
    ∃ m2, load_machine_code [some (0, 0), some (1, 0), some (3, 0)]
        (List.replicate 8192 0) 0 = Except.error (LoadError.sequence, m2) := by
  refine ⟨((List.replicate 8192 0).set 0 0).set 1 0, ?_⟩
  simp only [load_machine_code, List.length_set, List.length_replicate]
  norm_num

theorem load_capacity (n : ℕ) :
    ∀ (exp : ℕ) (mem : List ℕ), mem.length < exp + n → exp ≤ mem.length →
      ∃ m2, load_machine_code (seqFrom exp n) mem exp =
        Except.error (LoadError.capacity, m2) := by
  induction n with
  | zero =>
    intro exp mem h1 h2
    omega
  | succ k ih =>
    intro exp mem h1 h2
    simp only [seqFrom, load_machine_code]
    rw [if_neg (by omega)]
    by_cases hcap : mem.length ≤ exp
    · rw [if_pos hcap]
      exact ⟨mem, rfl⟩
    · rw [if_neg hcap]
      exact ih (exp + 1) (mem.set exp 0)
        (by rw [List.length_set]; omega) (by rw [List.length_set]; omega)

theorem simulation_isSome (pc : ℕ) (regs memory : List ℕ) :
    (simulation pc regs memory).isSome := by
  simp only [simulation]
  split_ifs with hs0 hs23
  · rfl
  · rfl
  · obtain ⟨p, r, m, heq, _⟩ :=
      instruction_2R_total (memory.getD (pc % 8192) 0) pc regs memory hs0
        (by tauto) (by tauto)
    rw [heq]
    rfl

/-- Claim C9: the loader succeeds exactly when every line parses and
carries the next expected strictly increasing zero-based address within
capacity; on the first violation it stops with the matching error and the
memory written so far (no further writes).  The spec scenarios: addresses
0,1,3 give the sequence error, 8193 sequential entries give the capacity
error against capacity 8192.  The executor itself never produces an
error: simulation always returns a result. -/
theorem loader_error_characterization :
    (∀ (lines : List (Option (ℕ × ℕ))) (mem : List ℕ) (exp : ℕ),
      (∃ m2, load_machine_code lines mem exp = Except.ok m2) ↔
      (∀ k, k < lines.length →
        ∃ instr, lines.getD k none = some (exp + k, instr) ∧
          exp + k < mem.length)) ∧
    (∃ m2, load_machine_code [some (0, 0), some (1, 0), some (3, 0)]
        (List.replicate 8192 0) 0 = Except.error (LoadError.sequence, m2)) ∧
    (∃ m2, load_machine_code (seqFrom 0 8193) (List.replicate 8192 0) 0 =
        Except.error (LoadError.capacity, m2)) ∧
    (∀ (pc : ℕ) (regs memory : List ℕ), (simulation pc regs memory).isSome) :=
  ⟨fun lines mem exp => load_ok_iff lines mem exp,
    load_gap,
    load_capacity 8193 0 (List.replicate 8192 0)
      (by rw [List.length_replicate]; omega) (by rw [List.length_replicate]; omega),
    fun pc regs memory => simulation_isSome pc regs memory⟩
